import Mathlib

/-!
Verification development for the MyWebIntelligence crawl-and-enrich pipeline.

Shallow embedding of `mwi/core.py`, `mwi/controller.py` and `mwi/model.py`.
External libraries (aiohttp, trafilatura, BeautifulSoup, NLTK, peewee's SQL
backend) are modelled as explicit inputs: every fetch result, extractor
output and parser output appears as a field of an environment record, while
the repository's own control flow, guards, field updates and persistence
logic are translated line by line.  Timestamps (`fetched_at`, `approved_at`,
`readable_at`) are modelled as Booleans recording whether the column is
non-null, which is all the specification's claims inspect.
-/

namespace MWI

/-! ## URL canonicalizer: `core.remove_anchor` (core.py lines 1261-1268)

Python: `anchor_pos = url.find('#'); return url[:anchor_pos] if anchor_pos > 0 else url`.
`str.find` returns the first index of `'#'` or `-1`; we model it with an
`Option Nat` returning the first index, `none` when absent. -/

/-- Python `str.startswith` / `str.endswith` on character lists
(structural, kernel-evaluable). -/
def pyStartsWith (s pre : String) : Bool := pre.data.isPrefixOf s.data

def pyEndsWith (s suf : String) : Bool := suf.data.isSuffixOf s.data

def firstIdx : List Char → Char → Option Nat
  | [], _ => none
  | c :: cs, t => if c = t then some 0 else (firstIdx cs t).map (· + 1)

def remove_anchor (url : String) : String :=
  match firstIdx url.data '#' with
  | some p => if 0 < p then String.mk (url.data.take p) else url
  | none => url

/-! ## `core.is_crawlable` (core.py lines 1291-1307)

Python checks `url.startswith(('http://', 'https://'))` and
`not url.endswith(exclude_ext)` (case-sensitive), guarded by a `try` whose
`except` returns `False`; the string operations used cannot raise for a
string argument, so the model is the direct Boolean. -/

def exclude_ext : List String :=
  [".jpg", ".jpeg", ".png", ".bmp", ".webp", ".pdf",
   ".txt", ".csv", ".xls", ".xlsx", ".doc", ".docx"]

def is_crawlable (url : String) : Bool :=
  (pyStartsWith url "http://" || pyStartsWith url "https://")
    && !(exclude_ext.any (fun e => pyEndsWith url e))

/-! ## `core.split_arg` (core.py lines 191-198)

Python: `args = arg.split(","); return [a.strip() for a in args if a]` —
empty pieces are dropped before stripping. -/

/-- Python `s.split(sep)` for a one-character separator, on the character
list (structural, so concrete instances evaluate in the kernel). -/
def splitOnChar (sep : Char) : List Char → List (List Char)
  | [] => [[]]
  | c :: cs =>
    let rest := splitOnChar sep cs
    if c = sep then [] :: rest
    else
      match rest with
      | r :: rs => (c :: r) :: rs
      | [] => [[c]]

def pySplit (sep : Char) (s : String) : List String :=
  (splitOnChar sep s.data).map String.mk

/-- Python `str.strip()` on the ASCII whitespace range. -/
def isPySpace (c : Char) : Bool :=
  c = ' ' || c = '\t' || c = '\n' || c = '\r' || c = '\x0b' || c = '\x0c'

def pyStrip (s : String) : String :=
  String.mk (((s.data.dropWhile isPySpace).reverse.dropWhile isPySpace).reverse)

def split_arg (arg : String) : List String :=
  ((pySplit ',' arg).filter (fun a => a ≠ "")).map pyStrip

/-! ## `core.resolve_url` (core.py lines 146-163)

Python lowercases with `str.lower`; we model it on the ASCII range, which is
the mapping Lean's `Char.toLower` implements.  `urllib.parse.urljoin` is an
external library function and is taken as a parameter; every branch of the
source (including the `except` branch) applies `.lower()` to its result. -/

def pyLower (s : String) : String := String.mk (s.data.map Char.toLower)

def resolve_url (urljoin : String → String → String)
    (base_url relative_url : String) : String :=
  if pyStartsWith relative_url "http://" || pyStartsWith relative_url "https://" then
    pyLower relative_url
  else
    pyLower (urljoin base_url relative_url)

/-! ## `core.extract_medias` (core.py lines 1390-1428)

The BeautifulSoup document is modelled as the list of `<img>/<video>/<audio>`
elements with their `src` attribute (`none` when the attribute is absent).
The source iterates tag kinds in the order img, video, audio, appending
`resolve_url(expression.url, src)` to the accumulator `medias`; the
"already seen" test compares the *raw* `src` against the list of *resolved*
URLs, and the video/audio extension test is `(… or True)`, i.e. always
passes — both quirks are kept.  The function returns the accumulator, the
list of URLs stored into the `Media` table. -/

structure MediaElem where
  tag : String
  src : Option String
  deriving DecidableEq, Repr

def IMAGE_EXTENSIONS : List String :=
  [".jpg", ".jpeg", ".png", ".gif", ".webp", ".bmp", ".svg"]

def lowerEndsWithAny (s : String) (exts : List String) : Bool :=
  exts.any (fun e => pyEndsWith (pyLower s) e)

/-- The per-element body of the `for element in content.find_all(tag)` loop. -/
def media_step (urljoin : String → String → String) (exprUrl tag : String)
    (acc : List String) (el : MediaElem) : List String :=
  match el.src with
  | none => acc
  | some src =>
    let valid := !(acc.contains src)
    let valid := if tag = "img" then valid && lowerEndsWithAny src IMAGE_EXTENSIONS
                 else valid
    if valid then acc ++ [resolve_url urljoin exprUrl src] else acc

def extract_medias (urljoin : String → String → String) (exprUrl : String)
    (elems : List MediaElem) : List String :=
  (["img", "video", "audio"]).foldl (fun acc tag =>
    (elems.filter (fun el => el.tag = tag)).foldl (media_step urljoin exprUrl tag) acc) []

/-! ## Relevance scorer: `core.expression_relevance` (core.py lines 1492-1516)

NLTK tokenization and Snowball stemming are external; the scorer is modelled
on the already-stemmed, space-joined texts (the `stemmed_text` values the
source builds).  `re.finditer(r'\b<lemma>\b', stemmed_text)` counts
non-overlapping leftmost matches of the escaped lemma flanked by word
boundaries; `\b` holds at a position iff exactly one of the adjacent
characters is a word character (position outside the string counting as
non-word).  Word characters are modelled on the ASCII range `[A-Za-z0-9_]`
(the source regex is Unicode-aware; stemmed French tokens in the claims'
scope are ASCII). -/

def isWordChar (c : Char) : Bool :=
  (('a' ≤ c && c ≤ 'z') || ('A' ≤ c && c ≤ 'Z') || ('0' ≤ c && c ≤ '9') || c = '_')

def wOpt : Option Char → Bool
  | some c => isWordChar c
  | none => false

def boundaryAt (s : List Char) (p : Nat) : Bool :=
  (wOpt (if p = 0 then none else s.get? (p - 1))) != (wOpt (s.get? p))

def matchesAt (s pat : List Char) (i : Nat) : Bool :=
  ((s.drop i).take pat.length) == pat

def countFromAux (s pat : List Char) : Nat → Nat → Nat
  | 0, _ => 0
  | fuel + 1, i =>
    if i ≤ s.length then
      if matchesAt s pat i && boundaryAt s i && boundaryAt s (i + pat.length) then
        1 + countFromAux s pat fuel (i + max pat.length 1)
      else
        countFromAux s pat fuel (i + 1)
    else 0

def countWholeWord (text lem : String) : Nat :=
  countFromAux text.data lem.data (text.data.length + 1) 0

/-- `get_relevance(text, weight)` returns, per lemma, `sum(weight for _ in finditer)`,
i.e. `weight * (number of matches)`. -/
def get_relevance (lemmas : List String) (stemmed_text : String) (weight : Nat) :
    List Nat :=
  lemmas.map (fun lem => weight * countWholeWord stemmed_text lem)

def expression_relevance (lemmas : List String)
    (stemmedTitle stemmedReadable : String) : Nat :=
  (get_relevance lemmas stemmedTitle 10).sum + (get_relevance lemmas stemmedReadable 1).sum

/-! ## Data model (model.py)

`Land.lang` is stored as a comma-separated string (`LandController.create`
joins the `--lang` list with `","`); the configured language list is its
split.  The land's dictionary (`get_land_dictionary` joined through
`LandDictionary`) is carried as the list of its lemmas.  `Expression`
carries the fields the claims inspect; `description`/`keywords`,
`published_at` and the `Domain` metadata columns are not modelled (no claim
reads them).  The store is a list of expressions plus the `expressionlink`
rows `(source_id, target_id)` with their composite primary key. -/

structure Land where
  id : Nat
  lang : String
  dict : List String
  deriving DecidableEq, Repr

/-- The land's configured language list: `Land.lang` split on `","`
(`LandController.create` joined the CLI list with `","`). -/
def landLangs (land : Land) : List String :=
  (splitOnChar ',' land.lang.data).map String.mk

structure Expression where
  id : Nat
  land : Nat
  url : String
  depth : Option Nat
  lang : Option String
  title : Option String
  readable : Option String
  http_status : Option String
  relevance : Option Nat
  fetched_at : Bool
  approved_at : Bool
  readable_at : Bool
  deriving DecidableEq, Repr

structure Db where
  exprs : List Expression
  links : List (Nat × Nat)
  nextId : Nat
  deriving DecidableEq, Repr

/-- A fresh pending expression as `model.Expression.create(land=…, domain=…,
url=…, depth=…)` builds it: every nullable column null, timestamps unset. -/
def pendingExpression (i landId : Nat) (url : String) (depth : Nat) : Expression :=
  { id := i, land := landId, url := url, depth := some depth, lang := none,
    title := none, readable := none, http_status := none, relevance := none,
    fetched_at := false, approved_at := false, readable_at := false }

/-! ## `core.add_expression` (core.py lines 1225-1243)

Canonicalizes with `remove_anchor`, rejects non-crawlable URLs (returning
`False`, modelled as `none`), reuses the `(land, url)` row when present and
otherwise creates a fresh pending expression at the given depth.  The
`Domain.get_or_create` call only attaches the domain row and is not needed
by any claim; it is omitted from the store. -/

def add_expression (db : Db) (landId : Nat) (url : String) (depth : Nat) :
    Option Nat × Db :=
  let url := remove_anchor url
  if is_crawlable url then
    match db.exprs.find? (fun x => x.url = url && x.land == landId) with
    | some e => (some e.id, db)
    | none =>
      let e := pendingExpression db.nextId landId url depth
      (some db.nextId, { db with exprs := db.exprs ++ [e], nextId := db.nextId + 1 })
  else (none, db)

/-- `model.ExpressionLink.create` with the `IntegrityError` swallowed:
duplicate `(source, target)` pairs are ignored (core.py lines 1281-1287). -/
def createLink (db : Db) (source target : Nat) : Db :=
  if db.links.contains (source, target) then db
  else { db with links := db.links ++ [(source, target)] }

/-- `core.link_expression` (core.py lines 1271-1288): the target is created at
`source_expression.depth + 1`.  The caller guarantees `depth is not None`
(the crawl guard checks it), so the depth value is passed explicitly. -/
def link_expression (db : Db) (landId : Nat) (sourceId sourceDepth : Nat)
    (url : String) : Db :=
  match add_expression db landId url (sourceDepth + 1) with
  | (some targetId, db) => createLink db sourceId targetId
  | (none, db) => db

/-! ## `core.crawl_expression` fetch ladder (core.py lines 952-1132)

The function actually dispatched by `crawl_land` is
`crawl_expression_with_media_analysis` (core.py lines 681-860); its body is
identical to `crawl_expression` on every modelled line, so one model covers
both.  External effects appear as an environment:

  * `direct` — the aiohttp GET: a status with content-type flag and body,
    a `ClientError` (status string `"000"`) or another exception (`"ERR"`).
    The body is captured only when `status == 200` and the content-type
    contains `html`.
  * `trafiMarkdown` — `trafilatura.extract(raw_html, output_format='markdown')`,
    `none` covering both a `None` result and a raised exception.
  * `trafiMediaLines` — the markdown media lines built from the trafilatura
    HTML projection by the BeautifulSoup loop (external parse).
  * `bsText` / `bsLinks` — the BeautifulSoup fallback: `get_readable` text
    after `clean_html`, and the crawlable `<a href>` list.
  * `archiveSnapshotUrl` — `archived_snapshots.closest.url` from the
    availability endpoint (`none` also covers request failures).
  * `archiveDownload` — `trafilatura.fetch_url(archived_url)`.
  * `archiveMarkdown` / `archiveMediaLines` — the trafilatura pass on it.
  * `mdLinks` — `extract_md_links` (a regex over the content; modelled as an
    opaque function of the content string).
  * `soupTitle`/`soupLang` — `get_title(soup)` (`""` = nothing found) and
    the final `lang` assignment `str(soup.html.get('lang','')) if soup.html
    else ''`, both functions of the string the final soup parses.
  * `stemOf` — NLTK tokenize + Snowball stem + space-join, applied by
    `expression_relevance` to `str(title)` and `str(readable)`.

Media storage and the optional dynamic-media/media-analysis passes touch
only the `Media` table and are not modelled here (see `extract_medias`). -/

inductive DirectFetch where
  | ok (status : Nat) (isHtml : Bool) (body : String)
  | clientError
  | genericError
  deriving DecidableEq, Repr

structure CrawlEnv where
  direct : DirectFetch
  trafiMarkdown : Option String
  trafiMediaLines : List String
  bsText : Option String
  bsLinks : List String
  archiveSnapshotUrl : Option String
  archiveDownload : Option String
  archiveMarkdown : Option String
  archiveMediaLines : List String
  mdLinks : String → List String
  soupTitle : String → String
  soupLang : String → String
  stemOf : String → String

def statusString : DirectFetch → String
  | .ok s _ _ => toString s
  | .clientError => "000"
  | .genericError => "ERR"

def rawHtmlOf : DirectFetch → Option String
  | .ok s isHtml body => if s == 200 && isHtml then some body else none
  | _ => none

/-- `content += "\n\n" + "\n".join(media_lines)` when `media_lines` is non-empty. -/
def withMediaLines (content : String) (lines : List String) : String :=
  if lines = [] then content
  else content ++ "\n\n" ++ String.intercalate "\n" lines

/-- Stages 2-3 of the ladder: returns `(content, links, final raw_html)` when
some stage produced content of length > 100, `none` otherwise.  Stage 3
overwrites `raw_html` with the archived download before the length check,
exactly as the source does. -/
def ladder (env : CrawlEnv) (rawHtml : Option String) :
    Option (String × List String × Option String) :=
  let stage2a : Option (String × List String) :=
    match rawHtml with
    | none => none
    | some _ =>
      match env.trafiMarkdown with
      | some md =>
        if md.length > 100 then
          let content := withMediaLines md env.trafiMediaLines
          some (content, env.mdLinks content)
        else none
      | none => none
  let stage2b : Option (String × List String) :=
    match stage2a, rawHtml with
    | none, some _ =>
      match env.bsText with
      | some t => if t.length > 100 then some (t, env.bsLinks) else none
      | none => none
    | _, _ => none
  match stage2a.orElse (fun _ => stage2b) with
  | some (c, ls) => some (c, ls, rawHtml)
  | none =>
    match env.archiveSnapshotUrl with
    | some _ =>
      match env.archiveDownload with
      | some downloaded =>
        match env.archiveMarkdown with
        | some md =>
          if md.length > 100 then
            let content := withMediaLines md env.archiveMediaLines
            some (content, env.mdLinks content, some downloaded)
          else none
        | none => none
      | none => none
    | none => none

/-- The link-creation guard and loop at the end of the content branch:
`if expression.relevance > 0 and expression.depth is not None and
expression.depth < 3 and links: for link in links: link_expression(…)`. -/
def crawl_links (landId : Nat) (db1 : Db) (eid : Nat) (depth : Option Nat)
    (rel : Nat) (links : List String) : Db :=
  if rel > 0 then
    match depth with
    | some pd =>
      if pd < 3 && !links.isEmpty then
        links.foldl (fun d u => link_expression d landId eid pd u) db1
      else db1
    | none => db1
  else db1

/-- The final processing and saving block of `crawl_expression`
(core.py lines 1096-1132).  Returns the updated store, the saved expression
and the 1/0 return value that `crawl_land` sums into `total_processed`. -/
def crawl_expression (land : Land) (env : CrawlEnv) (db : Db) (e : Expression) :
    Db × Expression × Nat :=
  let e1 : Expression :=
    { e with fetched_at := true, http_status := some (statusString env.direct) }
  match ladder env (rawHtmlOf env.direct) with
  | some (content, links, rawH) =>
    let soupSrc := rawH.getD content
    let t := env.soupTitle soupSrc
    let title := if t = "" then e.url else t
    let lang := env.soupLang soupSrc
    let rel := expression_relevance land.dict (env.stemOf title) (env.stemOf content)
    let e2 : Expression :=
      { e1 with title := some title, lang := some lang, readable := some content,
                relevance := some rel, readable_at := true,
                approved_at := if rel > 0 then true else e1.approved_at }
    let db1 : Db := { db with links := db.links.filter (fun l => l.1 ≠ e.id) }
    (crawl_links land.id db1 e2.id e2.depth rel links, e2, 1)
  | none => (db, e1, 0)

/-! ## `core.process_expression_content` (core.py lines 1310-1387)

The only place in the repository with a language gate.  The environment
carries the external parses: `pHtmlLang` is `soup.html.get('lang','')` when
the document has an `<html>` element (`none` otherwise — the assignment to
`expression.lang` is skipped in that case); `pTitle` is the final value of
the title pipeline (soup `<title>`, then the `extract_metadata` re-fetch
override, then the `"Content from <domain>"` fallback — all external fetch
and parse results folded into one input, since the gate and the claims do
not depend on how the title was chosen); `pReadable` is `get_readable(soup)`
after `clean_html`; `pHrefs` are the `<a href>` values of the cleaned soup.

Python truthiness of the gate: `if expression.lang and expression.land.lang
and expression.lang != expression.land.lang: relevance = 0`. -/

structure PecEnv where
  pHtmlLang : Option String
  pTitle : String
  pReadable : String
  pHrefs : List String
  stemOf : String → String

def langTruthy : Option String → Bool
  | some s => s ≠ ""
  | none => false

/-- The `lang` column after the conditional assignment at the top of
`process_expression_content`: overwritten from the document's `<html lang>`
attribute when the document has an `<html>` element, untouched otherwise. -/
def pecLang (env : PecEnv) (e : Expression) : Option String :=
  match env.pHtmlLang with
  | some l => some l
  | none => e.lang

def process_expression_content (land : Land) (env : PecEnv) (db : Db)
    (e : Expression) (html : String) : Db × Expression :=
  let e1 : Expression := { e with lang := pecLang env e }
  let readable :=
    if pyStrip env.pReadable = "" then "<!-- RAW HTML -->\n" ++ html else env.pReadable
  let e2 : Expression := { e1 with title := some env.pTitle, readable := some readable }
  let rel : Nat :=
    if langTruthy e2.lang && land.lang ≠ "" && e2.lang ≠ some land.lang then 0
    else expression_relevance land.dict (env.stemOf env.pTitle) (env.stemOf readable)
  let e3 : Expression := { e2 with relevance := some rel }
  if rel > 0 then
    let e4 : Expression := { e3 with approved_at := true }
    match e4.depth with
    | some pd =>
      if pd < 3 then
        let urls := env.pHrefs.filter is_crawlable
        (urls.foldl (fun d u => link_expression d land.id e4.id pd u) db, e4)
      else (db, e4)
    | none => (db, e4)
  else (db, e3)

/-! ## `core.consolidate_land` per-expression body (core.py lines 897-937)

For one already-fetched expression: delete its outbound links (and media),
recompute relevance from the stored `title`/`readable` (Python passes the
fields through `str(…)`, so a null column scores as the text `"None"`),
re-extract links from `readable` (markdown links, then crawlable hrefs not
already found), and re-create targets at `depth + 1` (or 1 when depth is
null) **with no depth cap**, swallowing duplicate-link conflicts.
`set(links)` iterates in an unspecified order; the model keeps first
occurrences.  `approved_at` is never touched. -/

def pyStr : Option String → String
  | some s => s
  | none => "None"

structure ConsEnv where
  mdLinks : String → List String
  htmlHrefs : String → List String
  stemOf : String → String

def dedupKeepFirst (l : List String) : List String :=
  l.foldl (fun acc u => if acc.contains u then acc else acc ++ [u]) []

/-- The `for url in set(links)` loop of the consolidation pass: add the
missing document at the target depth and re-create the link, swallowing
duplicate-key conflicts; note the absence of any depth cap. -/
def consolidate_links (landId eid td : Nat) (urls : List String) (db : Db) :
    Db :=
  urls.foldl (fun d u =>
    if is_crawlable u then
      match add_expression d landId u td with
      | (some targetId, d) => createLink d eid targetId
      | (none, d) => d
    else d) db

def consolidate_expression (land : Land) (env : ConsEnv) (db : Db)
    (e : Expression) : Db × Expression :=
  let db1 : Db := { db with links := db.links.filter (fun l => l.1 ≠ e.id) }
  let rel := expression_relevance land.dict (env.stemOf (pyStr e.title))
    (env.stemOf (pyStr e.readable))
  let e1 : Expression := { e with relevance := some rel }
  let links : List String :=
    match e.readable with
    | some r =>
      if r ≠ "" then
        let md := env.mdLinks r
        let urls := (env.htmlHrefs r).filter is_crawlable
        md ++ urls.filter (fun u => u ≠ "" && !(md.contains u))
      else []
    | none => []
  let targetDepth : Nat := match e.depth with | some pd => pd + 1 | none => 1
  (consolidate_links land.id e.id targetDepth (dedupKeepFirst links) db1, e1)

/-! ## `core.land_relevance` (core.py lines 1475-1489)

The relevance recompute triggered after `addterm`: for every expression of
the land with non-null `readable`, recompute and save `relevance`; nothing
else is touched. -/

def land_relevance_pass (land : Land) (stemOf : String → String)
    (exprs : List Expression) : List Expression :=
  exprs.map (fun e =>
    if e.land == land.id && e.readable.isSome then
      { e with relevance := some (expression_relevance land.dict
          (stemOf (pyStr e.title)) (stemOf (pyStr e.readable))) }
    else e)

/-! ## Batch scheduler: `core.crawl_land`, one depth (core.py lines 636-679)

The candidate query (`fetched_at` null — the `http` filter variant behaves
the same way for the claim) is a peewee query object: it is **re-executed
against the store for every window**, while `expression_count`,
`batch_count` and `last_batch_size` are computed once from the initial
state.  Processing an expression always sets `fetched_at` (both branches of
the processor save it), so candidates vanish between windows while the
offset keeps advancing by the batch size.  Each processor here succeeds
(returns 1); the per-batch error count is `batch_limit - sum(results)`. -/

structure SchedExpr where
  id : Nat
  depth : Nat
  fetched : Bool
  deriving DecidableEq, Repr

def candidates (db : List SchedExpr) (d : Nat) : List SchedExpr :=
  db.filter (fun x => !x.fetched && x.depth == d)

def markFetched (db : List SchedExpr) (ids : List Nat) : List SchedExpr :=
  db.map (fun x => if ids.contains x.id then { x with fetched := true } else x)

/-- The `for current_batch in range(batch_count)` loop, with the
`limit > 0 and total_processed >= limit` early return. -/
def crawlBatchLoop (B batchCount lastB d limit : Nat) :
    Nat → (List SchedExpr × Nat × Nat × Nat) → List SchedExpr × Nat × Nat
  | 0, (db, _, p, err) => (db, p, err)
  | n + 1, (db, off, p, err) =>
    let i := batchCount - (n + 1)
    let bl := if i + 1 = batchCount && lastB ≠ 0 then lastB else B
    let window := ((candidates db d).drop off).take bl
    let db := markFetched db (window.map (fun x => x.id))
    let succ := window.length
    let p := p + succ
    let err := err + (bl - succ)
    if limit > 0 && p ≥ limit then (db, p, err)
    else crawlBatchLoop B batchCount lastB d limit n (db, off + B, p, err)

def crawl_land_depth (B : Nat) (db : List SchedExpr) (d : Nat) (limit : Nat) :
    List SchedExpr × Nat × Nat :=
  let count := (candidates db d).length
  if count = 0 then (db, 0, 0)
  else
    let batchCount := (count + B - 1) / B
    let lastB := count % B
    crawlBatchLoop B batchCount lastB d limit batchCount (db, 0, 0, 0)

/-! ## `LandController.addterm` (controller.py lines 251-270)

For each term, inside one transaction: `lemma = ' '.join(stem(w) for w in
term.split(' '))`, `Word.get_or_create(term=term, lemma=lemma)`, then
`LandDictionary.create(land=…, word=…)` — with **no** `IntegrityError`
handler, so a duplicate `(land, word)` key raises out of the atomic block,
which rolls the transaction back and re-raises (`.error`, original store
unchanged). -/

structure WordRow where
  id : Nat
  term : String
  lem : String
  deriving DecidableEq, Repr

structure DictDb where
  words : List WordRow
  nextWordId : Nat
  landDict : List (Nat × Nat)
  deriving DecidableEq, Repr

def word_get_or_create (db : DictDb) (term lem : String) : WordRow × DictDb :=
  match db.words.find? (fun w => w.term = term && w.lem == lem) with
  | some w => (w, db)
  | none =>
    let w : WordRow := ⟨db.nextWordId, term, lem⟩
    (w, { db with words := db.words ++ [w], nextWordId := db.nextWordId + 1 })

def landdictionary_create (db : DictDb) (landId wordId : Nat) :
    Except Unit DictDb :=
  if db.landDict.contains (landId, wordId) then .error ()
  else .ok { db with landDict := db.landDict ++ [(landId, wordId)] }

def addterm_one (stem : String → String) (db : DictDb) (landId : Nat)
    (term : String) : Except Unit DictDb :=
  let lem := String.intercalate " " ((pySplit ' ' term).map stem)
  let (w, db1) := word_get_or_create db term lem
  match landdictionary_create db1 landId w.id with
  | .ok db2 => .ok db2
  | .error _ => .error ()

/-- The full `addterm` loop over `split_arg(args.terms)`: the first
unhandled `IntegrityError` aborts the remaining terms and propagates. -/
def addterm (stem : String → String) (db : DictDb) (landId : Nat) :
    List String → Except Unit DictDb
  | [] => .ok db
  | t :: ts =>
    match addterm_one stem db landId t with
    | .ok db1 => addterm stem db1 landId ts
    | .error _ => .error ()

/-! ## Helper lemmas -/

theorem firstIdx_take_none (cs : List Char) (p : Nat)
    (h : firstIdx cs '#' = some p) : firstIdx (cs.take p) '#' = none := by
  induction cs generalizing p with
  | nil => simp [firstIdx] at h
  | cons c cs ih =>
    by_cases hc : c = '#'
    · simp only [firstIdx, if_pos hc, Option.some.injEq] at h
      subst h
      simp [firstIdx]
    · simp only [firstIdx, if_neg hc, Option.map_eq_some'] at h
      obtain ⟨q, hq, rfl⟩ := h
      simp only [List.take_succ_cons, firstIdx, if_neg hc, ih q hq, Option.map_none']

theorem remove_anchor_of_none (u : String) (h : firstIdx u.data '#' = none) :
    remove_anchor u = u := by
  simp [remove_anchor, h]

theorem remove_anchor_of_zero (u : String) (h : firstIdx u.data '#' = some 0) :
    remove_anchor u = u := by
  simp [remove_anchor, h]

theorem remove_anchor_of_pos (u : String) (p : Nat)
    (h : firstIdx u.data '#' = some p) (hp : 0 < p) :
    remove_anchor u = String.mk (u.data.take p) := by
  simp [remove_anchor, h, hp]

theorem remove_anchor_idem (u : String) :
    remove_anchor (remove_anchor u) = remove_anchor u := by
  cases h : firstIdx u.data '#' with
  | none => rw [remove_anchor_of_none u h, remove_anchor_of_none u h]
  | some p =>
    rcases Nat.eq_zero_or_pos p with hp | hp
    · subst hp
      rw [remove_anchor_of_zero u h, remove_anchor_of_zero u h]
    · rw [remove_anchor_of_pos u p h hp]
      exact remove_anchor_of_none _ (firstIdx_take_none u.data p h)

theorem char_toLower_not_upper (c : Char) : (Char.toLower c).isUpper = false := by
  unfold Char.toLower Char.isUpper
  dsimp only
  split
  · rename_i h
    obtain ⟨h1, h2⟩ := h
    have hv : Nat.isValidChar (c.toNat + 32) := by
      left; omega
    rw [Char.ofNat, dif_pos hv]
    unfold Char.ofNatAux
    simp only [Bool.and_eq_false_iff, decide_eq_false_iff_not, not_le]
    right
    simp only [UInt32.lt_def, UInt32.le_def, BitVec.lt_def, BitVec.le_def]
    simp only [BitVec.toNat_ofNatLt]
    norm_num
    omega
  · rename_i h
    push_neg at h
    simp only [Bool.and_eq_false_iff, decide_eq_false_iff_not, not_le]
    simp only [UInt32.lt_def, UInt32.le_def, BitVec.lt_def, BitVec.le_def] at *
    simp only [Char.toNat] at h
    have hc : c.val.toNat = c.val.toBitVec.toNat := rfl
    by_cases h65 : (65 : UInt32).toBitVec.toNat ≤ c.val.toBitVec.toNat
    · right
      have h90 := h (by rw [← hc] at h65; exact h65)
      norm_num
      omega
    · left
      norm_num at h65 ⊢
      omega

/-- "contains no uppercase character" for the ASCII range. -/
def noUpper (s : String) : Bool := s.data.all (fun c => !c.isUpper)

theorem pyLower_noUpper (s : String) : noUpper (pyLower s) = true := by
  unfold noUpper pyLower
  rw [show (String.mk (s.data.map Char.toLower)).data = s.data.map Char.toLower from rfl]
  rw [List.all_map]
  refine List.all_eq_true.mpr (fun c _ => ?_)
  simp [Function.comp, char_toLower_not_upper]

theorem resolve_url_noUpper (urljoin : String → String → String) (b r : String) :
    noUpper (resolve_url urljoin b r) = true := by
  unfold resolve_url
  split <;> exact pyLower_noUpper _

theorem sum_map_add {α : Type} (f g : α → Nat) (l : List α) :
    (l.map f).sum + (l.map g).sum = (l.map (fun x => f x + g x)).sum := by
  induction l with
  | nil => simp
  | cons a l ih =>
    simp only [List.map_cons, List.sum_cons]
    omega

theorem media_step_noUpper (urljoin : String → String → String)
    (exprUrl tag : String) (acc : List String) (el : MediaElem)
    (h : acc.all noUpper = true) :
    (media_step urljoin exprUrl tag acc el).all noUpper = true := by
  unfold media_step
  cases el.src with
  | none => exact h
  | some src =>
    dsimp only
    split <;> split <;>
      first
        | exact h
        | · simp only [List.all_append, h, Bool.true_and, List.all_cons,
              List.all_nil, Bool.and_true]
            exact resolve_url_noUpper urljoin exprUrl src

theorem media_fold_noUpper (urljoin : String → String → String)
    (exprUrl tag : String) (els : List MediaElem) :
    ∀ acc : List String, acc.all noUpper = true →
      (els.foldl (media_step urljoin exprUrl tag) acc).all noUpper = true := by
  induction els with
  | nil => intro acc h; exact h
  | cons el els ih =>
    intro acc h
    exact ih _ (media_step_noUpper urljoin exprUrl tag acc el h)

/-! ## Claim theorems -/

/-- **C9.** `remove_anchor` strips the fragment only when `'#'` occurs at a
position strictly greater than 0 (returning everything before the first such
`'#'`), returns the input unchanged when there is no `'#'` or when it is at
position 0, and is idempotent on every string. -/
theorem C9_remove_anchor_spec :
    (∀ u : String, firstIdx u.data '#' = none → remove_anchor u = u) ∧
    (∀ u : String, firstIdx u.data '#' = some 0 → remove_anchor u = u) ∧
    (∀ (u : String) (p : Nat), firstIdx u.data '#' = some p → 0 < p →
      remove_anchor u = String.mk (u.data.take p)) ∧
    (∀ u : String, remove_anchor (remove_anchor u) = remove_anchor u) :=
  ⟨remove_anchor_of_none, remove_anchor_of_zero, remove_anchor_of_pos,
    remove_anchor_idem⟩

/-- Witness for C9 at concrete URLs: a fragment at position 15 is stripped, a
leading `'#'` and a fragment-free URL are untouched, and a second application
changes nothing. -/
theorem C9_remove_anchor_witness :
    remove_anchor "https://a.test/x#sec" = "https://a.test/x" ∧
    remove_anchor "#frag" = "#frag" ∧
    remove_anchor "https://a.test/x" = "https://a.test/x" ∧
    remove_anchor (remove_anchor "https://a.test/x#sec") =
      remove_anchor "https://a.test/x#sec" := by
  refine ⟨?_, ?_, ?_, ?_⟩
  · exact (C9_remove_anchor_spec.2.2.1 "https://a.test/x#sec" 16 (by decide)
      (by decide)).trans (by decide)
  · exact C9_remove_anchor_spec.2.1 "#frag" (by decide)
  · exact C9_remove_anchor_spec.1 "https://a.test/x" (by decide)
  · exact C9_remove_anchor_spec.2.2.2 "https://a.test/x#sec"

/-- **C10.** `resolve_url` returns the lowercased input when it is already an
absolute http/https URL and the lowercased join against the base otherwise,
so its output — and hence every media URL stored by `extract_medias` —
contains no (ASCII) uppercase character, whatever `urljoin` returns. -/
theorem C10_resolve_url_lowercases :
    (∀ (urljoin : String → String → String) (base rel : String),
      resolve_url urljoin base rel =
        (if pyStartsWith rel "http://" || pyStartsWith rel "https://" then
          pyLower rel
         else pyLower (urljoin base rel))) ∧
    (∀ (urljoin : String → String → String) (base rel : String),
      noUpper (resolve_url urljoin base rel) = true) ∧
    (∀ (urljoin : String → String → String) (exprUrl : String)
        (elems : List MediaElem),
      (extract_medias urljoin exprUrl elems).all noUpper = true) := by
  refine ⟨fun _ _ _ => rfl, resolve_url_noUpper, ?_⟩
  intro urljoin exprUrl elems
  unfold extract_medias
  simp only [List.foldl_cons, List.foldl_nil]
  exact media_fold_noUpper _ _ _ _ _ (media_fold_noUpper _ _ _ _ _
    (media_fold_noUpper _ _ _ _ _ rfl))

/-- **C6.** The relevance score is the sum over the dictionary lemmas of
10 times the whole-word count in the stemmed title plus 1 times the
whole-word count in the stemmed readable body; with lemmas `cat` and `dog`,
one title hit each and 3 + 2 body hits the score is `10*(1+1) + 1*(3+2) = 25`,
and a lemma embedded inside a longer word (`cat` in `catalog`) does not count. -/
theorem C6_relevance_formula :
    (∀ (lemmas : List String) (t b : String),
      expression_relevance lemmas t b =
        (lemmas.map (fun lem =>
          10 * countWholeWord t lem + countWholeWord b lem)).sum) ∧
    expression_relevance ["cat", "dog"] "cat and dog"
      "cat likes cat likes cat dog dog" = 25 ∧
    expression_relevance ["cat"] "catalog" "" = 0 := by
  refine ⟨fun lemmas t b => ?_, by decide, by decide⟩
  unfold expression_relevance get_relevance
  rw [sum_map_add]
  simp only [one_mul]

/-- **C7.** When the direct fetch raises a transport-level `ClientError` and
the archival availability lookup yields no snapshot, the expression is saved
with `http_status = "000"` and `fetched_at` set, `readable` and `approved_at`
stay null, the store is untouched and the processor returns 0 (counted by
`crawl_land` as one error: each batch adds `batch_limit - sum(results)` to
`total_errors`).  The model is total, mirroring the `except` clauses that
keep any exception from escaping. -/
theorem C7_transport_failure (land : Land) (env : CrawlEnv) (db : Db)
    (e : Expression)
    (hdir : env.direct = .clientError)
    (harch : env.archiveSnapshotUrl = none)
    (hread : e.readable = none) (happr : e.approved_at = false) :
    (crawl_expression land env db e).1 = db ∧
    (crawl_expression land env db e).2.1.http_status = some "000" ∧
    (crawl_expression land env db e).2.1.fetched_at = true ∧
    (crawl_expression land env db e).2.1.readable = none ∧
    (crawl_expression land env db e).2.1.approved_at = false ∧
    (crawl_expression land env db e).2.2 = 0 := by
  simp [crawl_expression, ladder, rawHtmlOf, statusString, hdir, harch, hread, happr]

/-- Witness environment for C7: connection refused, no archive snapshot. -/
def envTransportFail : CrawlEnv :=
  { direct := .clientError, trafiMarkdown := none, trafiMediaLines := [],
    bsText := none, bsLinks := [], archiveSnapshotUrl := none,
    archiveDownload := none, archiveMarkdown := none, archiveMediaLines := [],
    mdLinks := fun _ => [], soupTitle := fun _ => "", soupLang := fun _ => "",
    stemOf := fun s => s }

def landCat : Land := { id := 1, lang := "fr", dict := ["cat"] }

def seedExpr : Expression := pendingExpression 0 1 "https://a.test/" 0

def seedDb : Db := { exprs := [seedExpr], links := [], nextId := 1 }

theorem C7_transport_failure_witness :
    (crawl_expression landCat envTransportFail seedDb seedExpr).1 = seedDb ∧
    (crawl_expression landCat envTransportFail seedDb seedExpr).2.1.http_status =
      some "000" ∧
    (crawl_expression landCat envTransportFail seedDb seedExpr).2.1.fetched_at =
      true ∧
    (crawl_expression landCat envTransportFail seedDb seedExpr).2.1.readable =
      none ∧
    (crawl_expression landCat envTransportFail seedDb seedExpr).2.1.approved_at =
      false ∧
    (crawl_expression landCat envTransportFail seedDb seedExpr).2.2 = 0 :=
  C7_transport_failure landCat envTransportFail seedDb seedExpr rfl rfl rfl rfl

/-- **C8.** When the direct fetch returns 404 (so no body is captured) and the
archival fallback yields extractable content longer than 100 characters with
dictionary hits, the expression keeps `http_status = "404"` from the direct
fetch, `readable` is populated from the snapshot, and the expression is
approved. -/
theorem C8_archival_fallback (land : Land) (env : CrawlEnv) (db : Db)
    (e : Expression) (status : Nat) (isHtml : Bool) (body u dl md : String)
    (hdir : env.direct = .ok status isHtml body)
    (hstatus : status ≠ 200)
    (hsnap : env.archiveSnapshotUrl = some u)
    (hdl : env.archiveDownload = some dl)
    (hmd : env.archiveMarkdown = some md)
    (hlen : md.length > 100)
    (hrel : 0 < expression_relevance land.dict
      (env.stemOf (if env.soupTitle dl = "" then e.url else env.soupTitle dl))
      (env.stemOf (withMediaLines md env.archiveMediaLines))) :
    (crawl_expression land env db e).2.1.http_status = some (toString status) ∧
    (crawl_expression land env db e).2.1.readable =
      some (withMediaLines md env.archiveMediaLines) ∧
    (crawl_expression land env db e).2.1.relevance =
      some (expression_relevance land.dict
        (env.stemOf (if env.soupTitle dl = "" then e.url else env.soupTitle dl))
        (env.stemOf (withMediaLines md env.archiveMediaLines))) ∧
    (crawl_expression land env db e).2.1.approved_at = true ∧
    (crawl_expression land env db e).2.2 = 1 := by
  have hbe : (status == 200) = false := by simpa using hstatus
  simp [crawl_expression, ladder, rawHtmlOf, statusString, hdir, hbe, hsnap, hdl,
    hmd, hlen, hrel]

/-- Witness environment for C8: 404 on the direct fetch, an archived snapshot
whose markdown holds 26 whole-word occurrences of the lemma `cat`. -/
def md26 : String := String.intercalate " " (List.replicate 26 "cat")

def envArchival : CrawlEnv :=
  { direct := .ok 404 false "", trafiMarkdown := none, trafiMediaLines := [],
    bsText := none, bsLinks := [],
    archiveSnapshotUrl := some "http://archive.test/snap",
    archiveDownload := some "<html></html>", archiveMarkdown := some md26,
    archiveMediaLines := [], mdLinks := fun _ => [],
    soupTitle := fun _ => "", soupLang := fun _ => "", stemOf := fun s => s }

/-- Environment for a crawl of a page declaring `lang="en"` in a land whose
configured language list is `["fr"]`, with 1 title hit and 26 body hits of
the dictionary lemma `cat` and one outbound markdown link. -/
def envLangEn : CrawlEnv :=
  { direct := .ok 200 true "<html lang=en></html>", trafiMarkdown := some md26,
    trafiMediaLines := [], bsText := none, bsLinks := [],
    archiveSnapshotUrl := none, archiveDownload := none, archiveMarkdown := none,
    archiveMediaLines := [], mdLinks := fun _ => ["https://b.test/page"],
    soupTitle := fun _ => "cat", soupLang := fun _ => "en", stemOf := fun s => s }

/-- **C1 counterexample.** A crawl-pipeline run on a page whose `lang` (`"en"`)
is non-empty and absent from the land's configured language list (`["fr"]`)
stores relevance 36 (not 0), approves the expression and creates a child
expression at depth 1 together with an outbound link: the crawl pipeline has
no language gate. -/
theorem C1_counterexample :
    (crawl_expression landCat envLangEn seedDb seedExpr).2.1.lang = some "en" ∧
    "en" ≠ "" ∧ "en" ∉ landLangs landCat ∧
    (crawl_expression landCat envLangEn seedDb seedExpr).2.1.relevance =
      some 36 ∧
    (crawl_expression landCat envLangEn seedDb seedExpr).2.1.approved_at =
      true ∧
    (crawl_expression landCat envLangEn seedDb seedExpr).1.exprs.map
      (fun x => (x.id, x.url, x.depth)) =
      [(0, "https://a.test/", some 0), (1, "https://b.test/page", some 1)] ∧
    (crawl_expression landCat envLangEn seedDb seedExpr).1.links = [(0, 1)] := by
  decide

/-- **C1 (amended).** The crawl pipeline applies no language gate: its store
updates, relevance, approval and return value are invariant under changing
the expression's `lang` and the land's `lang`.  The gate exists only in
`process_expression_content` (never invoked by the crawl pipeline), where it
compares exact strings, not list membership: when the expression's lang and
the land's lang string are both non-empty and differ, relevance is forced to
0, no approval happens and no outbound expression or link is created. -/
theorem C1_amended_language_gate :
    (∀ (land : Land) (env : CrawlEnv) (db : Db) (e : Expression)
        (l1 l2 : String) (o1 o2 : Option String),
      (crawl_expression { land with lang := l1 } env db { e with lang := o1 }).1 =
        (crawl_expression { land with lang := l2 } env db { e with lang := o2 }).1 ∧
      (crawl_expression { land with lang := l1 } env db { e with lang := o1 }).2.1.relevance =
        (crawl_expression { land with lang := l2 } env db { e with lang := o2 }).2.1.relevance ∧
      (crawl_expression { land with lang := l1 } env db { e with lang := o1 }).2.1.approved_at =
        (crawl_expression { land with lang := l2 } env db { e with lang := o2 }).2.1.approved_at ∧
      (crawl_expression { land with lang := l1 } env db { e with lang := o1 }).2.2 =
        (crawl_expression { land with lang := l2 } env db { e with lang := o2 }).2.2) ∧
    (∀ (land : Land) (env : PecEnv) (db : Db) (e : Expression) (html : String),
      langTruthy (pecLang env e) = true → land.lang ≠ "" →
      pecLang env e ≠ some land.lang →
      (process_expression_content land env db e html).1 = db ∧
      (process_expression_content land env db e html).2.relevance = some 0 ∧
      (process_expression_content land env db e html).2.approved_at =
        e.approved_at) := by
  constructor
  · intro land env db e l1 l2 o1 o2
    cases h : ladder env (rawHtmlOf env.direct) with
    | none => simp [crawl_expression, h]
    | some v =>
      obtain ⟨c, ls, rh⟩ := v
      simp [crawl_expression, h]
  · intro land env db e html h1 h2 h3
    simp [process_expression_content, h1, h2, h3]

/-- Environment for `process_expression_content` with `<html lang="en">`. -/
def envPecEn : PecEnv :=
  { pHtmlLang := some "en", pTitle := "cat", pReadable := "cat", pHrefs := [],
    stemOf := fun s => s }

theorem C1_amended_witness :
    ((crawl_expression { landCat with lang := "fr" } envTransportFail seedDb
        { seedExpr with lang := none }).1 =
      (crawl_expression { landCat with lang := "en" } envTransportFail seedDb
        { seedExpr with lang := some "en" }).1) ∧
    ((process_expression_content landCat envPecEn seedDb seedExpr "<html>").1 =
        seedDb ∧
      (process_expression_content landCat envPecEn seedDb seedExpr
        "<html>").2.relevance = some 0 ∧
      (process_expression_content landCat envPecEn seedDb seedExpr
        "<html>").2.approved_at = seedExpr.approved_at) :=
  ⟨(C1_amended_language_gate.1 landCat envTransportFail seedDb seedExpr
      "fr" "en" none (some "en")).1,
    C1_amended_language_gate.2 landCat envPecEn seedDb seedExpr "<html>"
      (by decide) (by decide) (by decide)⟩

theorem C8_archival_fallback_witness :
    (crawl_expression landCat envArchival seedDb seedExpr).2.1.http_status =
      some "404" ∧
    (crawl_expression landCat envArchival seedDb seedExpr).2.1.readable =
      some (withMediaLines md26 envArchival.archiveMediaLines) ∧
    (crawl_expression landCat envArchival seedDb seedExpr).2.1.relevance =
      some (expression_relevance landCat.dict
        (envArchival.stemOf (if envArchival.soupTitle "<html></html>" = ""
          then seedExpr.url else envArchival.soupTitle "<html></html>"))
        (envArchival.stemOf (withMediaLines md26 envArchival.archiveMediaLines))) ∧
    (crawl_expression landCat envArchival seedDb seedExpr).2.1.approved_at =
      true ∧
    (crawl_expression landCat envArchival seedDb seedExpr).2.2 = 1 :=
  (C8_archival_fallback landCat envArchival seedDb seedExpr 404 false "" _ _ _
    rfl (by decide) rfl rfl rfl (by decide) (by decide))

/-- An already-fetched, never-approved expression whose stored title and
body each hold one whole-word occurrence of the dictionary lemma `cat`. -/
def fetchedCatExpr : Expression :=
  { id := 0, land := 1, url := "https://a.test/", depth := some 0, lang := none,
    title := some "cat", readable := some "cat", http_status := some "200",
    relevance := some 0, fetched_at := true, approved_at := false,
    readable_at := true }

def envConsId : ConsEnv :=
  { mdLinks := fun _ => [], htmlHrefs := fun _ => [], stemOf := fun s => s }

/-- **C2 counterexample.** Consolidation recomputes a strictly positive
relevance (11) for a never-approved expression yet leaves `approved_at`
null, so "`approved_at` is non-null iff the relevance computed by the last
pass is > 0" fails after a consolidation pass. -/
theorem C2_counterexample :
    (consolidate_expression landCat envConsId
      { exprs := [fetchedCatExpr], links := [], nextId := 1 }
      fetchedCatExpr).2.relevance = some 11 ∧
    (0 : Nat) < 11 ∧
    (consolidate_expression landCat envConsId
      { exprs := [fetchedCatExpr], links := [], nextId := 1 }
      fetchedCatExpr).2.approved_at = false := by
  decide

/-- **C2 (amended).** After a crawl pass that produced content (return value
1) on a previously unapproved expression, `approved_at` is non-null iff the
computed relevance is strictly positive; but consolidation and the
`land_relevance` recompute update `relevance` without ever touching
`approved_at` (and no pass ever resets `approved_at` to null), so the
biconditional does not survive those passes. -/
theorem C2_amended_approval :
    (∀ (land : Land) (env : CrawlEnv) (db : Db) (e : Expression),
      e.approved_at = false →
      (crawl_expression land env db e).2.2 = 1 →
      ((crawl_expression land env db e).2.1.approved_at = true ↔
        ∃ r, (crawl_expression land env db e).2.1.relevance = some r ∧ 0 < r)) ∧
    (∀ (land : Land) (env : ConsEnv) (db : Db) (e : Expression),
      (consolidate_expression land env db e).2.approved_at = e.approved_at) ∧
    (∀ (land : Land) (stemOf : String → String) (exprs : List Expression),
      (land_relevance_pass land stemOf exprs).map Expression.approved_at =
        exprs.map Expression.approved_at) := by
  refine ⟨?_, ?_, ?_⟩
  · intro land env db e happr hret
    cases h : ladder env (rawHtmlOf env.direct) with
    | none => simp [crawl_expression, h] at hret
    | some v =>
      obtain ⟨c, ls, rh⟩ := v
      simp only [crawl_expression, h] at *
      by_cases hrel : 0 < expression_relevance land.dict
        (env.stemOf (if env.soupTitle (rh.getD c) = "" then e.url
          else env.soupTitle (rh.getD c)))
        (env.stemOf c)
      · simp [hrel]
      · have h0 := Nat.eq_zero_of_not_pos hrel
        simp [happr, h0]
  · intro land env db e
    simp [consolidate_expression]
  · intro land stemOf exprs
    unfold land_relevance_pass
    rw [List.map_map]
    refine List.map_congr_left (fun e _ => ?_)
    by_cases h : (e.land == land.id && e.readable.isSome) = true <;>
      simp [Function.comp, h]

theorem C2_amended_witness :
    ((crawl_expression landCat envArchival seedDb seedExpr).2.1.approved_at =
        true ↔
      ∃ r, (crawl_expression landCat envArchival seedDb
        seedExpr).2.1.relevance = some r ∧ 0 < r) ∧
    (consolidate_expression landCat envConsId
      { exprs := [fetchedCatExpr], links := [], nextId := 1 }
      fetchedCatExpr).2.approved_at = fetchedCatExpr.approved_at :=
  ⟨C2_amended_approval.1 landCat envArchival seedDb seedExpr (by decide)
      (by decide),
    C2_amended_approval.2.1 landCat envConsId
      { exprs := [fetchedCatExpr], links := [], nextId := 1 } fetchedCatExpr⟩

theorem add_expression_mem (db : Db) (landId : Nat) (url : String) (d : Nat)
    (x : Expression) (hx : x ∈ (add_expression db landId url d).2.exprs) :
    x ∈ db.exprs ∨ x.depth = some d := by
  unfold add_expression at hx
  dsimp only at hx
  split at hx
  · split at hx
    · exact Or.inl hx
    · dsimp only at hx
      rcases List.mem_append.mp hx with h | h
      · exact Or.inl h
      · right
        rw [List.mem_singleton.mp h]
        rfl
  · exact Or.inl hx

theorem createLink_exprs (db : Db) (s t : Nat) :
    (createLink db s t).exprs = db.exprs := by
  unfold createLink
  split <;> rfl

theorem link_expression_mem (db : Db) (landId sid pd : Nat) (url : String)
    (x : Expression)
    (hx : x ∈ (link_expression db landId sid pd url).exprs) :
    x ∈ db.exprs ∨ x.depth = some (pd + 1) := by
  unfold link_expression at hx
  cases h : add_expression db landId url (pd + 1) with
  | mk tid db2 =>
    rw [h] at hx
    cases tid with
    | some t =>
      rw [createLink_exprs] at hx
      exact add_expression_mem db landId url (pd + 1) x (by rw [h]; exact hx)
    | none =>
      exact add_expression_mem db landId url (pd + 1) x (by rw [h]; exact hx)

theorem link_fold_mem (landId sid pd : Nat) (urls : List String) :
    ∀ (db : Db) (x : Expression),
      x ∈ (urls.foldl (fun d u => link_expression d landId sid pd u) db).exprs →
      x ∈ db.exprs ∨ x.depth = some (pd + 1) := by
  induction urls with
  | nil => exact fun db x hx => Or.inl hx
  | cons u us ih =>
    intro db x hx
    rcases ih _ x hx with h | h
    · exact link_expression_mem db landId sid pd u x h
    · exact Or.inr h

theorem crawl_links_mem (landId : Nat) (db1 : Db) (eid : Nat)
    (depth : Option Nat) (rel : Nat) (links : List String) (x : Expression)
    (hx : x ∈ (crawl_links landId db1 eid depth rel links).exprs) :
    x ∈ db1.exprs ∨
      ∃ pd, depth = some pd ∧ pd < 3 ∧ 0 < rel ∧ x.depth = some (pd + 1) := by
  unfold crawl_links at hx
  split at hx
  · rename_i hrel
    split at hx
    · rename_i pd
      split at hx
      · rename_i hguard
        rcases link_fold_mem landId eid pd links db1 x hx with h | h
        · exact Or.inl h
        · exact Or.inr ⟨pd, rfl, by
            have := (Bool.and_eq_true _ _).mp hguard
            exact of_decide_eq_true this.1, hrel, h⟩
      · exact Or.inl hx
    · exact Or.inl hx
  · exact Or.inl hx

theorem consolidate_links_mem (landId eid td : Nat) (urls : List String) :
    ∀ (db : Db) (x : Expression),
      x ∈ (consolidate_links landId eid td urls db).exprs →
      x ∈ db.exprs ∨ x.depth = some td := by
  unfold consolidate_links
  induction urls with
  | nil => exact fun db x hx => Or.inl hx
  | cons u us ih =>
    intro db x hx
    rcases ih _ x hx with h | h
    · dsimp only at h
      split at h
      · cases hadd : add_expression db landId u td with
        | mk tid db2 =>
          rw [hadd] at h
          cases tid with
          | some t =>
            rw [createLink_exprs] at h
            exact add_expression_mem db landId u td x (by rw [hadd]; exact h)
          | none =>
            exact add_expression_mem db landId u td x (by rw [hadd]; exact h)
      · exact Or.inl h
    · exact Or.inr h

/-- The expression stored for the consolidation counterexample: already
fetched at depth 3 with a readable body holding one outbound link. -/
def depth3Expr : Expression :=
  { id := 0, land := 1, url := "https://a.test/", depth := some 3, lang := none,
    title := some "", readable := some "body", http_status := some "200",
    relevance := some 1, fetched_at := true, approved_at := true,
    readable_at := true }

def envConsLink : ConsEnv :=
  { mdLinks := fun _ => ["https://b.test/page"], htmlHrefs := fun _ => [],
    stemOf := fun s => s }

/-- **C3 counterexample.** Consolidating an expression at depth 3 creates a
child expression at depth 4 (> 3) and an outbound link, because the
consolidation path has no `depth < 3` guard: "child.depth ≤ 3" and "link
creation only when p.depth < 3" both fail on the consolidation pass. -/
theorem C3_counterexample :
    (consolidate_expression landCat envConsLink
      { exprs := [depth3Expr], links := [], nextId := 1 } depth3Expr).1.exprs.map
        (fun x => (x.id, x.depth)) = [(0, some 3), (1, some 4)] ∧
    (consolidate_expression landCat envConsLink
      { exprs := [depth3Expr], links := [], nextId := 1 }
      depth3Expr).1.links = [(0, 1)] := by
  decide

/-- **C3 (amended).** During crawl, every expression added to the store while
processing `p` is created at depth `p.depth + 1 ≤ 3`, and only when
`p.depth < 3` and the computed relevance is strictly positive.  During
consolidation, children and links are created at `p.depth + 1` (1 when
`p.depth` is null) with **no** depth cap, so consolidation children may
reach depth 4. -/
theorem C3_amended_depth_guard :
    (∀ (land : Land) (env : CrawlEnv) (db : Db) (e x : Expression),
      x ∈ (crawl_expression land env db e).1.exprs →
      x ∈ db.exprs ∨ ∃ pd r, e.depth = some pd ∧ pd < 3 ∧
        (crawl_expression land env db e).2.1.relevance = some r ∧ 0 < r ∧
        x.depth = some (pd + 1) ∧ pd + 1 ≤ 3) ∧
    (∀ (land : Land) (env : ConsEnv) (db : Db) (e x : Expression),
      x ∈ (consolidate_expression land env db e).1.exprs →
      x ∈ db.exprs ∨
        x.depth = some (match e.depth with | some pd => pd + 1 | none => 1)) := by
  constructor
  · intro land env db e x hx
    cases h : ladder env (rawHtmlOf env.direct) with
    | none =>
      simp only [crawl_expression, h] at hx
      exact Or.inl hx
    | some v =>
      obtain ⟨c, ls, rh⟩ := v
      simp only [crawl_expression, h] at hx ⊢
      rcases crawl_links_mem _ _ _ _ _ _ x hx with hmem | ⟨pd, hdep, hlt, hrel, hd⟩
      · exact Or.inl hmem
      · refine Or.inr ⟨pd, _, hdep, hlt, rfl, hrel, hd, by omega⟩
  · intro land env db e x hx
    simp only [consolidate_expression] at hx
    rcases consolidate_links_mem _ _ _ _ _ x hx with h | h
    · exact Or.inl h
    · exact Or.inr h

theorem C3_amended_witness :
    pendingExpression 1 1 "https://b.test/page" 1 ∈ seedDb.exprs ∨
      ∃ pd r, seedExpr.depth = some pd ∧ pd < 3 ∧
        (crawl_expression landCat envLangEn seedDb
          seedExpr).2.1.relevance = some r ∧ 0 < r ∧
        (pendingExpression 1 1 "https://b.test/page" 1).depth = some (pd + 1) ∧
        pd + 1 ≤ 3 :=
  C3_amended_depth_guard.1 landCat envLangEn seedDb seedExpr
    (pendingExpression 1 1 "https://b.test/page" 1) (by decide)

/-- A dictionary store in which word 1 = (`cat`, lemma `cat`) is already a
member of land 7's dictionary. -/
def dictDbCat : DictDb :=
  { words := [⟨1, "cat", "cat"⟩], nextWordId := 2, landDict := [(7, 1)] }

instance : DecidableEq (Except Unit DictDb) := fun a b =>
  match a, b with
  | .ok x, .ok y => decidable_of_iff (x = y) (by simp)
  | .error x, .error y => decidable_of_iff (x = y) (by simp)
  | .ok _, .error _ => isFalse (by simp)
  | .error _, .ok _ => isFalse (by simp)

/-- **C4 counterexample.** Re-adding the term `cat` to a land whose
dictionary already holds it makes `addterm` propagate the duplicate-key
error (`.error`), both for the single-term step and for the whole
`addterm` loop over `split_arg("cat")`: the conflict on the dictionary
insert is *not* swallowed. -/
theorem C4_counterexample :
    addterm_one (fun w => w) dictDbCat 7 "cat" = .error () ∧
    addterm (fun w => w) dictDbCat 7 (split_arg "cat") = .error () := by
  decide

/-- **C4 (amended).** Re-adding a term whose word row is already a member of
the land's dictionary does not duplicate the membership — the composite-key
insert is rejected and the enclosing transaction rolls back — but the
`IntegrityError` is not swallowed: `addterm` propagates it.  A successful
membership insert conversely requires the pair to be absent and appends
exactly one row. -/
theorem C4_amended_addterm :
    (∀ (stem : String → String) (db : DictDb) (landId : Nat) (term : String)
        (w : WordRow),
      db.words.find? (fun x => x.term = term &&
        x.lem == String.intercalate " " ((pySplit ' ' term).map stem)) = some w →
      db.landDict.contains (landId, w.id) = true →
      addterm_one stem db landId term = .error ()) ∧
    (∀ (db : DictDb) (l wid : Nat) (db2 : DictDb),
      landdictionary_create db l wid = .ok db2 →
      db.landDict.contains (l, wid) = false ∧
      db2.landDict = db.landDict ++ [(l, wid)]) := by
  constructor
  · intro stem db landId term w hfind hcont
    have hmem : (landId, w.id) ∈ db.landDict := by simpa using hcont
    simp [addterm_one, word_get_or_create, landdictionary_create, hfind, hmem]
  · intro db l wid db2 h
    unfold landdictionary_create at h
    split at h
    · cases h
    · rename_i hc
      refine ⟨by simpa using hc, ?_⟩
      cases h
      rfl

theorem C4_amended_witness :
    addterm_one (fun w => w) dictDbCat 7 "cat" = .error () :=
  C4_amended_addterm.1 (fun w => w) dictDbCat 7 "cat" ⟨1, "cat", "cat"⟩
    (by decide) (by decide)

/-- Two pending expressions at depth 0 of the same land. -/
def schedDb0 : List SchedExpr := [⟨0, 0, false⟩, ⟨1, 0, false⟩]

/-- **C5.** With batch size 1, no limit and two candidates at depth 0, the
scheduler computes two windows from the initial count, but processing the
first window removes its expression from the re-evaluated candidate query,
so the second window (`offset 1` into the now one-element candidate list) is
empty: expression 1 is never processed (`fetched` stays false) and the run
reports `(processed, errors) = (1, 1)` without ever attempting it — the
claim's "every candidate processed exactly once" fails on the code. -/
theorem C5_pagination_skips :
    (candidates schedDb0 0).length = 2 ∧
    crawl_land_depth 1 schedDb0 0 0 =
      ([⟨0, 0, true⟩, ⟨1, 0, false⟩], 1, 1) := by
  decide

end MWI
